import Mathlib

/-!
Verification development for the Voyadecir OCR pipeline.

The executable code of the repository is `src/node/fileHandler.js`
(`processPDF`), embedded below over an explicit filesystem/OCR
environment. The Orchestrator's fallback decision and the
Retry/Backoff Controller have no implementation in the repository
sources; they are modelled from the specification where a claim needs
them, and each such definition is marked `Modelled from the spec:`.
-/

/-- A JavaScript value as it can flow out of `runOCR`: a string, `null`,
or `undefined`. -/
inductive JSValue where
  | str (s : String)
  | null
  | undefined
deriving DecidableEq

/-- JavaScript string coercion as performed by `+` on a string operand:
`null` prints as "null", `undefined` as "undefined". -/
def jsToString : JSValue → String
  | .str s => s
  | .null => "null"
  | .undefined => "undefined"

/-- `p` starts with `q`, computed on character lists so the kernel can
evaluate it (JS `String.prototype.startsWith`). -/
def strStartsWith (s p : String) : Bool := p.data.isPrefixOf s.data

/-- `s` ends with `p`, computed on character lists (JS
`String.prototype.endsWith`). -/
def strEndsWith (s p : String) : Bool := p.data.isSuffixOf s.data

/-- JS `String.prototype.trim`: strip whitespace from both ends. -/
def jsTrim (s : String) : String :=
  String.mk (((s.data.dropWhile Char.isWhitespace).reverse.dropWhile
    Char.isWhitespace).reverse)

/-- The characters JS `basename` treats as separators; only `/` here
(posix paths, as produced by the source's `path.join` use). -/
def jsBasenameRaw (p : String) : String :=
  let chars := p.data
  let trimmed := (chars.reverse.dropWhile (fun c => c = '/')).reverse
  String.mk ((trimmed.reverse.takeWhile (fun c => c ≠ '/')).reverse)

/-- `path.extname`: the suffix of the basename from its last `.`, empty
when there is no dot past the first character. -/
def jsExtname (p : String) : String :=
  let b := (jsBasenameRaw p).data
  let tail := b.drop 1
  let after := tail.reverse.takeWhile (fun c => c ≠ '.')
  if after.length = tail.length then "" else String.mk ('.' :: after.reverse)

/-- `path.basename(p, ext)`: the basename with a trailing `ext`
stripped when it is a proper suffix. -/
def jsBasename (p : String) (ext : String) : String :=
  let b := jsBasenameRaw p
  if ext != "" && b != ext && strEndsWith b ext then
    String.mk (b.data.take (b.data.length - ext.data.length))
  else b

/-- `path.join("./temp_images")` as computed by the source: the
normalized temp directory name. -/
def tempDir : String := "temp_images"

/-- `path.join(tempDir, img)`. -/
def pathJoin (a b : String) : String := a ++ "/" ++ b

/-- The options record passed to `pdf.convert` in `processPDF`
(`fileHandler.js` lines 13-18): note the rasterization is requested via
`scale: 1024` (a scale-to-pixels setting), with no DPI option. -/
structure PdfConvertOpts where
  format : String
  out_dir : String
  out_prefix : String
  scale : Nat
deriving DecidableEq

/-- The concrete options `processPDF` builds for a given input path. -/
def processPDFOpts (pdfPath : String) : PdfConvertOpts :=
  { format := "png"
    out_dir := tempDir
    out_prefix := jsBasename pdfPath (jsExtname pdfPath)
    scale := 1024 }

/-- Poppler's `scale`/`-scale-to` option scales each page so that its
longer side measures that many pixels; the effective resolution of a
page whose longer side is `longSideInches` inches is therefore
`scalePx / longSideInches` dots per inch. (Behavior of the external
`pdf-poppler` dependency, not of repository code.) -/
def effectiveDpi (scalePx : Nat) (longSideInches : ℚ) : ℚ :=
  (scalePx : ℚ) / longSideInches

/-- The ambient effects `processPDF` interacts with, made explicit:
whether the temp dir pre-exists, the outcome of `fs.mkdirSync`, the
outcome of `pdf.convert`, the directory listing `fs.readdirSync`
returns after conversion, and the per-image behavior of `runOCR`
(either a resolved JS value or a thrown error message). -/
structure FsEnv where
  tempDirExists : Bool
  mkdirResult : Except String Unit
  convertResult : Except String Unit
  listing : List String
  ocr : String → Except String JSValue

/-- The per-image loop of `processPDF` (`fileHandler.js` lines 29-34):
each image's OCR result is coerced to a string and appended with a
newline; the `console.warn` on falsy results has no effect on the
returned text; a thrown OCR error aborts the loop (caught by the outer
`try`). -/
def ocrLoop (ocr : String → Except String JSValue) :
    List String → String → Except String String
  | [], acc => .ok acc
  | img :: rest, acc =>
    match ocr (pathJoin tempDir img) with
    | .error e => .error e
    | .ok t => ocrLoop ocr rest (acc ++ jsToString t ++ "\n")

/-- The body of `processPDF`'s `try` block: ensure the temp dir,
convert the PDF, list and filter the generated images, run the OCR
loop, and return the accumulated text. -/
def processPDFBody (pdfPath : String) (env : FsEnv) : Except String String := do
  (if env.tempDirExists then Except.ok () else env.mkdirResult)
  env.convertResult
  let fileName := jsBasename pdfPath (jsExtname pdfPath)
  let images := env.listing.filter
    (fun f => strStartsWith f fileName && strEndsWith f ".png")
  ocrLoop env.ocr images ""

/-- `processPDF` (`fileHandler.js` lines 7-41): on success the trimmed
accumulated text, on any thrown error the empty string (the `catch`
block logs and returns `""`). -/
def processPDF (pdfPath : String) (env : FsEnv) : String :=
  match processPDFBody pdfPath env with
  | .ok fullText => jsTrim fullText
  | .error _ => ""

/-- The error kinds of `EngineError` in the specification. -/
inductive ErrKind where
  | timeout
  | auth
  | rate_limit
  | malformed_response
  | unknown
deriving DecidableEq

/-- Modelled from the spec: the Retry/Backoff Controller's transient
error classification — backoff "applies only to transient error kinds
(timeout, rate_limit)". The Controller itself is absent from the
repository sources. -/
def transient : ErrKind → Bool
  | .timeout => true
  | .rate_limit => true
  | _ => false

/-- Modelled from the spec: the Retry Controller's configuration
(`withRetry(operation, maxAttempts=3, baseDelay)` with a hard delay
ceiling). -/
structure RetryCfg where
  maxAttempts : Nat
  baseDelay : Nat
  ceiling : Nat

/-- Modelled from the spec: the backoff delay scheduled after attempt
`i` — "delay doubles each attempt, bounded by a hard ceiling". -/
def delayFor (cfg : RetryCfg) (i : Nat) : Nat :=
  min (cfg.baseDelay * 2 ^ i) cfg.ceiling

/-- What one `withRetry` invocation exposes for diagnostics: the final
result, how many attempts ran, and the delays slept between them. -/
structure RetryLog (α : Type) where
  result : Except ErrKind α
  attempts : Nat
  delays : List Nat

/-- Modelled from the spec: the retry loop at attempt `i` with `fuel`
further attempts allowed after the current one. A success or a
non-transient error ends the loop at once; a transient error with
budget left schedules a backoff delay and recurses. -/
def retryAux (cfg : RetryCfg) (op : Nat → Except ErrKind α)
    (fuel i : Nat) : RetryLog α :=
  match op i with
  | .ok a => ⟨.ok a, 1, []⟩
  | .error k =>
    if transient k then
      match fuel with
      | 0 => ⟨.error k, 1, []⟩
      | fuel' + 1 =>
        let r := retryAux cfg op fuel' (i + 1)
        ⟨r.result, r.attempts + 1, delayFor cfg i :: r.delays⟩
    else ⟨.error k, 1, []⟩
termination_by fuel

/-- Modelled from the spec: `withRetry` — run `op` starting at attempt
1 with at most `cfg.maxAttempts` attempts in total. The Retry
Controller has no implementation under the repository sources. -/
def withRetry (cfg : RetryCfg) (op : Nat → Except ErrKind α) : RetryLog α :=
  retryAux cfg op (cfg.maxAttempts - 1) 1

/-- The result the primary (or fallback) engine produces for a run:
either an error after its retry budget, or text with a confidence. -/
inductive EngineOutcome where
  | errored
  | succeeded (text : String) (confidence : ℚ)
deriving DecidableEq

/-- The Orchestrator's states, from the spec's state machine. -/
inductive OState where
  | idle
  | preprocessing
  | primaryAttempt
  | evaluate
  | fallbackAttempt
  | finalizing
  | done
  | failed
deriving DecidableEq

/-- One Orchestrator run with its engines mocked: whether preprocessing
produced at least one page, what each engine returns when invoked, and
the confidence threshold in force. -/
structure MockRun where
  preprocessOk : Bool
  primary : EngineOutcome
  fallback : EngineOutcome
  threshold : ℚ

/-- Modelled from the spec: the Orchestrator's transition function —
`Idle → Preprocessing → PrimaryAttempt → Evaluate → [Finalizing |
FallbackAttempt] → Finalizing → Done|Failed`; `Evaluate` moves on
without fallback exactly when the primary succeeded with confidence at
or above the threshold. The Orchestrator is absent from the repository
sources. -/
def onext (m : MockRun) : OState → OState
  | .idle => .preprocessing
  | .preprocessing => if m.preprocessOk then .primaryAttempt else .failed
  | .primaryAttempt => .evaluate
  | .evaluate =>
    match m.primary with
    | .errored => .fallbackAttempt
    | .succeeded _ c => if c < m.threshold then .fallbackAttempt else .finalizing
  | .fallbackAttempt => .finalizing
  | .finalizing =>
    match m.primary, m.fallback with
    | .succeeded _ _, _ => .done
    | .errored, .succeeded _ _ => .done
    | .errored, .errored => .failed
  | .done => .done
  | .failed => .failed

/-- The states an Orchestrator run passes through, starting at `s`,
with `fuel` bounding the walk (a state mapping to itself is
terminal). -/
def traceFrom (m : MockRun) : Nat → OState → List OState
  | 0, s => [s]
  | n + 1, s => if onext m s = s then [s] else s :: traceFrom m n (onext m s)

/-- The full trace of one Orchestrator run; eight steps of fuel cover
the machine's longest path. -/
def orchTrace (m : MockRun) : List OState := traceFrom m 8 .idle

/-- Whether the run ever entered `FallbackAttempt`, i.e. whether the
fallback engine was invoked. -/
def fallbackInvoked (m : MockRun) : Bool :=
  (orchTrace m).any (fun s => s = .fallbackAttempt)

/-- Stage statuses recorded by the Diagnostics Recorder. -/
inductive StageStatus where
  | ok
  | error
  | skipped
deriving DecidableEq

/-- The engine whose text the outcome carries. -/
inductive EngineChoice where
  | primary
  | fallback
deriving DecidableEq

/-- Modelled from the spec: the `fallback_call` stage record of the
final outcome — `skipped` when fallback was never invoked, otherwise
the fallback engine's own status. -/
def fallbackStageStatus (m : MockRun) : StageStatus :=
  if fallbackInvoked m then
    match m.fallback with
    | .errored => .error
    | .succeeded _ _ => .ok
  else .skipped

/-- Modelled from the spec: `engine_used` — set when some engine
produced usable text; fallback's text wins when fallback was invoked
and succeeded, otherwise the primary's text if any. -/
def engineUsed (m : MockRun) : Option EngineChoice :=
  if fallbackInvoked m then
    match m.fallback with
    | .succeeded _ _ => some .fallback
    | .errored =>
      match m.primary with
      | .succeeded _ _ => some .primary
      | .errored => none
  else
    match m.primary with
    | .succeeded _ _ => some .primary
    | .errored => none

/-- The page texts in directory-listing order, each followed by the
newline `processPDF` appends: the shape of the text the OCR loop
accumulates when no OCR call throws. -/
def concatPages (g : String → JSValue) : List String → String
  | [] => ""
  | img :: rest => jsToString (g (pathJoin tempDir img)) ++ "\n" ++ concatPages g rest

/-- A fully successful single-page run: the temp dir exists, conversion
succeeds, one image is produced, OCR reads "hello". -/
def envRun1 : FsEnv :=
  { tempDirExists := true
    mkdirResult := .ok ()
    convertResult := .ok ()
    listing := ["doc-1.png"]
    ocr := fun _ => .ok (.str "hello") }

/-- A run on which `pdf.convert` throws with a server-style message. -/
def envRun2 : FsEnv :=
  { tempDirExists := true
    mkdirResult := .ok ()
    convertResult := .error "Internal Server Error"
    listing := []
    ocr := fun _ => .ok (.str "") }

/-- A multi-page run where rasterization throws on one page. -/
def envRun4 : FsEnv :=
  { tempDirExists := true
    mkdirResult := .ok ()
    convertResult := .error "failed to rasterize page 3 of 5"
    listing := []
    ocr := fun _ => .ok (.str "") }

/-- A two-page document whose images are enumerated by the filesystem
in reverse page order. -/
def envRun5 : FsEnv :=
  { tempDirExists := true
    mkdirResult := .ok ()
    convertResult := .ok ()
    listing := ["doc-2.png", "doc-1.png"]
    ocr := fun p =>
      if p = "temp_images/doc-1.png" then .ok (.str "PAGE1")
      else if p = "temp_images/doc-2.png" then .ok (.str "PAGE2")
      else .ok (.str "") }

/-- A run where directory creation throws before any conversion. -/
def envRun9 : FsEnv :=
  { tempDirExists := false
    mkdirResult := .error "EACCES: permission denied"
    convertResult := .ok ()
    listing := []
    ocr := fun _ => .ok (.str "") }

/-- A two-page run whose second page's OCR resolves to `null`. -/
def envRun10 : FsEnv :=
  { tempDirExists := true
    mkdirResult := .ok ()
    convertResult := .ok ()
    listing := ["doc-1.png", "doc-2.png"]
    ocr := fun p =>
      if p = "temp_images/doc-1.png" then .ok (.str "hello")
      else .ok .null }

/-- C1: the externally visible result of a complete, successful
`processPDF` run is the bare extracted text alone — the function's
codomain is `String`, and on this fully successful run the value is
exactly "hello", carrying no stage records at all (no `upload_parse`,
`pdf_to_image`, `azure_call`, `fallback_call` or `extraction` entries,
and no `skipped` markers for stages never attempted). -/
theorem claim1_plain_string_outcome : processPDF "doc.pdf" envRun1 = "hello" := by
  decide

/-- C2: on a failing run (here `pdf.convert` throws an opaque
server-style error), `processPDF` returns the empty string — an
unstructured empty result with no stage attribution and no bilingual
error detail. -/
theorem claim2_opaque_empty_failure : processPDF "doc.pdf" envRun2 = "" := by
  decide

/-- C3: `processPDF` requests rasterization with `scale: 1024`
(scale-to-1024-pixels), not a fixed 300 DPI: for a US-Letter page
(11 in long side) the effective resolution is 1024/11 ≈ 93 DPI. -/
theorem claim3_scale_not_300dpi :
    (processPDFOpts "doc.pdf").scale = 1024 ∧ effectiveDpi 1024 11 ≠ 300 := by
  constructor
  · rfl
  · norm_num [effectiveDpi]

/-- C4: when rasterization throws for one page of a multi-page PDF, the
single `pdf.convert` call fails, the `catch` block runs, and
`processPDF` returns "" — the whole run is aborted; no remaining page
is processed and no per-page error is recorded or aggregated. -/
theorem claim4_raster_failure_aborts_run : processPDF "contract.pdf" envRun4 = "" := by
  decide

/-- C5 counterexample: with the two page images enumerated by the
filesystem in reverse order, `processPDF` emits page 2's text before
page 1's — the assembled text does not follow document page order. -/
theorem claim5_counterexample :
    processPDF "doc.pdf" envRun5 = "PAGE2\nPAGE1" ∧
      ("PAGE2\nPAGE1" : String) ≠ "PAGE1\nPAGE2" := by
  decide

/-- When no OCR call throws, the loop accumulates exactly the pages'
texts in list order, each followed by a newline. -/
theorem ocrLoop_ok (g : String → JSValue) (imgs : List String) (acc : String) :
    ocrLoop (fun s => .ok (g s)) imgs acc = .ok (acc ++ concatPages g imgs) := by
  induction imgs generalizing acc with
  | nil => simp [ocrLoop, concatPages]
  | cons img rest ih => simp [ocrLoop, concatPages, ih, String.append_assoc]

/-- C5 (amended): on a run where conversion succeeds and every OCR call
resolves, the text `processPDF` returns is the trimmed concatenation of
the per-page texts in the order the filesystem listing enumerates the
images (filtered to this document's `.png` files) — the directory
listing order, not intrinsically the document page order. -/
theorem claim5_listing_order (p : String) (l : List String) (g : String → JSValue) :
    processPDF p ⟨true, .ok (), .ok (), l, fun s => .ok (g s)⟩ =
      jsTrim (concatPages g (l.filter (fun f =>
        strStartsWith f (jsBasename p (jsExtname p)) && strEndsWith f ".png"))) := by
  simp [processPDF, processPDFBody, ocrLoop_ok]
  rfl

/-- C10: a page whose OCR call resolves to `null` is still concatenated
(JS string coercion prints it as "null") followed by a newline, so the
returned text contains the literal substring "null" instead of the
page being omitted. -/
theorem claim10_null_in_output :
    processPDF "doc.pdf" envRun10 = "hello\nnull" ∧
      ("null" : String).data <:+: ("hello\nnull" : String).data := by
  decide


/-- C9: `processPDF` is total — its result is always a `String` — and
whenever any step of the body throws (directory setup, `pdf.convert`,
or an OCR call in the per-page loop), the `catch` block maps the run to
the empty string; when nothing throws it returns the trimmed text. -/
theorem claim9_errors_mapped_to_empty (p : String) (env : FsEnv) :
    (∀ e, processPDFBody p env = .error e → processPDF p env = "") ∧
    (∀ t, processPDFBody p env = .ok t → processPDF p env = jsTrim t) := by
  constructor
  · intro e he
    simp [processPDF, he]
  · intro t ht
    simp [processPDF, ht]

/-- On a run whose directory setup throws, the body errors and
`processPDF` returns "": `claim9_errors_mapped_to_empty` applied at
`envRun9`. -/
theorem claim9_witness :
    processPDFBody "doc.pdf" envRun9 = .error "EACCES: permission denied" ∧
      processPDF "doc.pdf" envRun9 = "" := by
  constructor
  · rfl
  · exact (claim9_errors_mapped_to_empty "doc.pdf" envRun9).1
      "EACCES: permission denied" rfl

/-- The OCR loop only consults the OCR function on the listed images'
paths: two OCR behaviors that agree there produce the same loop
result. -/
theorem ocrLoop_congr (f g : String → Except String JSValue)
    (imgs : List String) (acc : String)
    (h : ∀ img ∈ imgs, f (pathJoin tempDir img) = g (pathJoin tempDir img)) :
    ocrLoop f imgs acc = ocrLoop g imgs acc := by
  induction imgs generalizing acc with
  | nil => rfl
  | cons img rest ih =>
    have h1 : f (pathJoin tempDir img) = g (pathJoin tempDir img) :=
      h img (List.mem_cons_self img rest)
    simp only [ocrLoop, h1]
    cases g (pathJoin tempDir img) with
    | error e => rfl
    | ok t => exact ih _ (fun i hi => h i (List.mem_cons_of_mem img hi))

/-- C8: `processPDF` is deterministic in its environment — two runs on
the same input path whose environments agree on the temp-dir state, the
conversion outcome, the directory listing, and the OCR responses for
the listed images produce identical result strings (the result carries
no timing fields, so "byte-identical except timing" is full byte
identity here). -/
theorem claim8_deterministic_outcome (p : String) (e₁ e₂ : FsEnv)
    (h₁ : e₁.tempDirExists = e₂.tempDirExists)
    (h₂ : e₁.mkdirResult = e₂.mkdirResult)
    (h₃ : e₁.convertResult = e₂.convertResult)
    (h₄ : e₁.listing = e₂.listing)
    (h₅ : ∀ img ∈ e₁.listing,
      e₁.ocr (pathJoin tempDir img) = e₂.ocr (pathJoin tempDir img)) :
    processPDF p e₁ = processPDF p e₂ := by
  obtain ⟨t₁, m₁, c₁, l₁, o₁⟩ := e₁
  obtain ⟨t₂, m₂, c₂, l₂, o₂⟩ := e₂
  simp only at h₁ h₂ h₃ h₄ h₅
  subst h₁ h₂ h₃ h₄
  have hloop : ∀ imgs : List String, (∀ i ∈ imgs, i ∈ l₁) → ∀ acc,
      ocrLoop o₁ imgs acc = ocrLoop o₂ imgs acc := by
    intro imgs hsub acc
    exact ocrLoop_congr o₁ o₂ imgs acc (fun i hi => h₅ i (hsub i hi))
  simp only [processPDF, processPDFBody]
  rw [hloop _ (fun i hi => (List.mem_filter.mp hi).1) _]

/-- Two environments mocking the same engine responses on the listed
image (one of them answering differently off the listing) yield the
same result: `claim8_deterministic_outcome` applied at `envDet1`,
`envDet2`. -/
def envDet1 : FsEnv :=
  { tempDirExists := true
    mkdirResult := .ok ()
    convertResult := .ok ()
    listing := ["doc-1.png"]
    ocr := fun _ => .ok (.str "texto") }

/-- Same mocked responses as `envDet1` on the listed image, different
behavior elsewhere. -/
def envDet2 : FsEnv :=
  { tempDirExists := true
    mkdirResult := .ok ()
    convertResult := .ok ()
    listing := ["doc-1.png"]
    ocr := fun s =>
      if s = "temp_images/doc-1.png" then .ok (.str "texto") else .ok .undefined }

/-- Witness for C8 at concrete environments. -/
theorem claim8_witness :
    (envDet1.tempDirExists = envDet2.tempDirExists) ∧
    (envDet1.mkdirResult = envDet2.mkdirResult) ∧
    (envDet1.convertResult = envDet2.convertResult) ∧
    (envDet1.listing = envDet2.listing) ∧
    (∀ img ∈ envDet1.listing,
      envDet1.ocr (pathJoin tempDir img) = envDet2.ocr (pathJoin tempDir img)) ∧
    processPDF "doc.pdf" envDet1 = processPDF "doc.pdf" envDet2 := by
  have h₅ : ∀ img ∈ envDet1.listing,
      envDet1.ocr (pathJoin tempDir img) = envDet2.ocr (pathJoin tempDir img) := by
    intro img hi
    simp only [envDet1, List.mem_singleton] at hi
    subst hi
    rfl
  exact ⟨rfl, rfl, rfl, rfl, h₅,
    claim8_deterministic_outcome "doc.pdf" envDet1 envDet2 rfl rfl rfl rfl h₅⟩

/-- The delays the retry loop schedules starting at attempt `i` with
`fuel` retries left: one doubling, ceiling-capped delay per retry. -/
def delaySeq (cfg : RetryCfg) : Nat → Nat → List Nat
  | 0, _ => []
  | f + 1, i => delayFor cfg i :: delaySeq cfg f (i + 1)

/-- An operation failing transiently on every attempt drives the retry
loop through its whole budget, logging one attempt per unit of fuel
plus the first, with the doubling delay sequence. -/
theorem retryAux_transient (cfg : RetryCfg) (op : Nat → Except ErrKind α)
    (k : ErrKind) (hk : transient k = true) (hop : ∀ i, op i = .error k) :
    ∀ fuel i, retryAux cfg op fuel i = ⟨.error k, fuel + 1, delaySeq cfg fuel i⟩ := by
  intro fuel
  induction fuel with
  | zero => intro i; simp [retryAux, hop i, hk, delaySeq]
  | succ f ih => intro i; simp [retryAux, hop i, hk, delaySeq, ih]

/-- `delaySeq` has one delay per unit of fuel. -/
theorem delaySeq_length (cfg : RetryCfg) :
    ∀ fuel i, (delaySeq cfg fuel i).length = fuel := by
  intro fuel
  induction fuel with
  | zero => intro i; rfl
  | succ f ih => intro i; simp [delaySeq, ih]

/-- With a positive base delay, a later backoff delay is strictly
larger than an earlier one unless it has hit the ceiling. -/
theorem delayFor_lt_or_ceiling (cfg : RetryCfg) (hbase : 0 < cfg.baseDelay)
    (i j : Nat) (hij : i < j) :
    delayFor cfg i < delayFor cfg j ∨ delayFor cfg j = cfg.ceiling := by
  by_cases h : cfg.baseDelay * 2 ^ j ≤ cfg.ceiling
  · left
    have h2 : (2 : Nat) ^ i < 2 ^ j := Nat.pow_lt_pow_right (by norm_num) hij
    calc delayFor cfg i ≤ cfg.baseDelay * 2 ^ i := Nat.min_le_left _ _
      _ < cfg.baseDelay * 2 ^ j := (Nat.mul_lt_mul_left hbase).mpr h2
      _ = delayFor cfg j := (Nat.min_eq_left h).symm
  · right
    exact Nat.min_eq_right (Nat.le_of_lt (Nat.lt_of_not_le h))

/-- The scheduled delay sequence is pairwise strictly increasing or
ceiling-capped. -/
theorem delaySeq_chain (cfg : RetryCfg) (hbase : 0 < cfg.baseDelay) :
    ∀ fuel i, List.Chain' (fun a b => a < b ∨ b = cfg.ceiling) (delaySeq cfg fuel i) := by
  intro fuel
  induction fuel with
  | zero => intro i; simp [delaySeq]
  | succ f ih =>
    intro i
    cases f with
    | zero => simp [delaySeq]
    | succ f' =>
      rw [delaySeq, delaySeq]
      exact List.Chain'.cons (delayFor_lt_or_ceiling cfg hbase i (i + 1) (Nat.lt_succ_self i))
        (by rw [← delaySeq]; exact ih (i + 1))

/-- C7: under the Retry Controller, an operation failing with a
transient kind (`timeout` or `rate_limit`) on every attempt runs
exactly `maxAttempts` attempts, sleeps `maxAttempts - 1` delays that
are pairwise strictly increasing or ceiling-capped, and surfaces the
error only then; an operation failing with a non-transient kind
(`auth` or `malformed_response`) on its first attempt runs exactly one
attempt, sleeps no delay, and surfaces the error immediately. -/
theorem claim7_retry_policy {α : Type} (cfg : RetryCfg)
    (op : Nat → Except ErrKind α)
    (hmax : 1 ≤ cfg.maxAttempts) (hbase : 0 < cfg.baseDelay) :
    (∀ k, (k = ErrKind.timeout ∨ k = ErrKind.rate_limit) →
      (∀ i, op i = .error k) →
      (withRetry cfg op).attempts = cfg.maxAttempts ∧
      (withRetry cfg op).delays.length = cfg.maxAttempts - 1 ∧
      (withRetry cfg op).result = .error k ∧
      List.Chain' (fun a b => a < b ∨ b = cfg.ceiling) (withRetry cfg op).delays) ∧
    (∀ k, (k = ErrKind.auth ∨ k = ErrKind.malformed_response) →
      op 1 = .error k →
      (withRetry cfg op).attempts = 1 ∧
      (withRetry cfg op).result = .error k ∧
      (withRetry cfg op).delays = []) := by
  constructor
  · intro k hkind hop
    have hk : transient k = true := by
      rcases hkind with h | h <;> subst h <;> rfl
    have hr := retryAux_transient cfg op k hk hop (cfg.maxAttempts - 1) 1
    rw [withRetry, hr]
    refine ⟨?_, delaySeq_length cfg _ 1, rfl, delaySeq_chain cfg hbase _ 1⟩
    show cfg.maxAttempts - 1 + 1 = cfg.maxAttempts
    omega
  · intro k hkind hop
    have hk : transient k = false := by
      rcases hkind with h | h <;> subst h <;> rfl
    rw [withRetry]
    simp [retryAux, hop, hk]

/-- A `maxAttempts = 3` configuration with base delay 100 and ceiling
250 (so the second delay is capped). -/
def cfgW : RetryCfg := ⟨3, 100, 250⟩

/-- An operation timing out on every attempt. -/
def opTimeout : Nat → Except ErrKind Unit := fun _ => .error .timeout

/-- An operation failing authentication on every attempt. -/
def opAuth : Nat → Except ErrKind Unit := fun _ => .error .auth

/-- Witness for C7: at `cfgW`, the always-timeout operation runs 3
attempts with 2 increasing-or-capped delays; the auth-failing
operation runs once with no delay. -/
theorem claim7_witness :
    (1 ≤ cfgW.maxAttempts) ∧ (0 < cfgW.baseDelay) ∧
    ((withRetry cfgW opTimeout).attempts = cfgW.maxAttempts ∧
      (withRetry cfgW opTimeout).delays.length = cfgW.maxAttempts - 1 ∧
      (withRetry cfgW opTimeout).result = .error .timeout ∧
      List.Chain' (fun a b => a < b ∨ b = cfgW.ceiling)
        (withRetry cfgW opTimeout).delays) ∧
    ((withRetry cfgW opAuth).attempts = 1 ∧
      (withRetry cfgW opAuth).result = .error .auth ∧
      (withRetry cfgW opAuth).delays = []) := by
  refine ⟨by decide, by decide, ?_, ?_⟩
  · exact (claim7_retry_policy cfgW opTimeout (by decide) (by decide)).1
      .timeout (Or.inl rfl) (fun i => rfl)
  · exact (claim7_retry_policy cfgW opAuth (by decide) (by decide)).2
      .auth (Or.inl rfl) rfl

/-- When primary errored, the run's trace passes through
`FallbackAttempt`. -/
theorem fallbackInvoked_errored (fb : EngineOutcome) (th : ℚ) :
    fallbackInvoked ⟨true, .errored, fb, th⟩ = true := by
  cases fb <;> simp [fallbackInvoked, orchTrace, traceFrom, onext]

/-- When primary succeeded below threshold, the trace passes through
`FallbackAttempt`. -/
theorem fallbackInvoked_low (t : String) (c : ℚ) (fb : EngineOutcome) (th : ℚ)
    (h : c < th) : fallbackInvoked ⟨true, .succeeded t c, fb, th⟩ = true := by
  cases fb <;> simp [fallbackInvoked, orchTrace, traceFrom, onext, h]

/-- When primary succeeded at or above threshold, the trace never
enters `FallbackAttempt`. -/
theorem fallbackInvoked_high (t : String) (c : ℚ) (fb : EngineOutcome) (th : ℚ)
    (h : ¬c < th) : fallbackInvoked ⟨true, .succeeded t c, fb, th⟩ = false := by
  cases fb <;> simp [fallbackInvoked, orchTrace, traceFrom, onext, h]

/-- C6: in the Orchestrator as specified, for a run that reaches the
primary attempt, the fallback engine is invoked if and only if the
primary errored after its retries or its confidence is below the
threshold; and whenever primary confidence meets the threshold, the
`fallback_call` stage is recorded `skipped` and `engine_used` is
`primary`. -/
theorem claim6_fallback_iff_trigger (m : MockRun) (hp : m.preprocessOk = true) :
    (fallbackInvoked m = true ↔
      m.primary = .errored ∨
        ∃ t c, m.primary = .succeeded t c ∧ c < m.threshold) ∧
    (∀ t c, m.primary = .succeeded t c → m.threshold ≤ c →
      fallbackStageStatus m = .skipped ∧ engineUsed m = some .primary) := by
  obtain ⟨pp, prim, fb, th⟩ := m
  simp only at hp
  subst hp
  cases prim with
  | errored =>
    refine ⟨⟨fun _ => Or.inl rfl, fun _ => fallbackInvoked_errored fb th⟩, ?_⟩
    intro t c hc
    exact absurd hc (by simp)
  | succeeded t c =>
    by_cases hc : c < th
    · refine ⟨⟨fun _ => Or.inr ⟨t, c, rfl, hc⟩, fun _ => fallbackInvoked_low t c fb th hc⟩, ?_⟩
      intro t' c' heq hle
      injection heq with ht hcc
      subst hcc
      exact absurd hle (not_le.mpr hc)
    · have hfi := fallbackInvoked_high t c fb th hc
      constructor
      · constructor
        · intro h
          rw [hfi] at h
          exact absurd h (by simp)
        · rintro (h | ⟨t', c', heq, hlt⟩)
          · exact absurd h (by simp)
          · injection heq with ht hcc
            subst hcc
            exact absurd hlt hc
      · intro t' c' heq hle
        exact ⟨by simp [fallbackStageStatus, hfi], by simp [engineUsed, hfi]⟩

/-- A run whose primary confidence 0.9 meets the 0.75 threshold. -/
def runHigh : MockRun := ⟨true, .succeeded "hola" (9 / 10), .succeeded "fb" (1 / 2), 3 / 4⟩

/-- Witness for C6 at `runHigh`. -/
theorem claim6_witness :
    runHigh.preprocessOk = true ∧
    ((fallbackInvoked runHigh = true ↔
      runHigh.primary = .errored ∨
        ∃ t c, runHigh.primary = .succeeded t c ∧ c < runHigh.threshold) ∧
    (∀ t c, runHigh.primary = .succeeded t c → runHigh.threshold ≤ c →
      fallbackStageStatus runHigh = .skipped ∧ engineUsed runHigh = some .primary)) :=
  ⟨rfl, claim6_fallback_iff_trigger runHigh rfl⟩
